import Mathlib

/-
Verification of the STM32 MCU composition and lifecycle logic
(hw/cortexm/stm32-mcu.c) against its natural-language specification.

The C file is shallowly embedded below: the realize callback, the two
peripheral factories (create_gpio, create_usart), the reset callback and
the memory-regions-create override become pure Lean functions over an
explicit MCU state record.  Side effects that the claims talk about
(object allocation, property injection, chardev synthesis, alias-region
creation) are recorded in an event trace; fatal errors (hw_error, assert)
are modelled as error results that abort the remaining composition.
-/

namespace STM32

/-- Chip family enumeration (STM32_FAMILY_F1 .. L1, plus anything else). -/
inductive STM32Family
  | f1
  | f2
  | f3
  | f4
  | l1
  | other
deriving DecidableEq, Repr

/-- Capability descriptor (STM32Capabilities): immutable per-variant record.
Fields follow the flags read by stm32_mcu_realize_callback. -/
structure STM32Capabilities where
  family : STM32Family
  hsi_freq_hz : Nat
  lsi_freq_hz : Nat
  has_periph_bitband : Bool
  has_pwr : Bool
  has_gpioa : Bool
  has_gpiob : Bool
  has_gpioc : Bool
  has_gpiod : Bool
  has_gpioe : Bool
  has_gpiof : Bool
  has_gpiog : Bool
  has_usart1 : Bool
  has_usart2 : Bool
  has_usart3 : Bool
  has_uart4 : Bool
  has_uart5 : Bool
  has_usart6 : Bool
deriving DecidableEq, Repr

/-- A backing character stream (CharDriverState): its name and backend kind.
A synthesized discard stream has backend "null". -/
structure Chardev where
  name : String
  backend : String
deriving DecidableEq, Repr

/-- A child peripheral node as built by the factories: qdev object name,
integer properties set on it, which non-owning pointers were injected,
the attached chardev (serial only), and whether it was realized. -/
structure Child where
  name : String
  intProps : List (String × Nat) := []
  hasCapabilities : Bool := false
  hasRccRef : Bool := false
  hasNvicRef : Bool := false
  chardev : Option Chardev := none
  realized : Bool := false
deriving DecidableEq, Repr

/-- The flash alias memory region created by the realize callback:
memory_region_init_alias(. , "mem-flash-alias", flash_mem, 0, size),
set read-only, inserted at 0x08000000. -/
structure AliasRegion where
  base : Nat
  size : Nat
  readonly : Bool
  offsetInBacking : Nat
deriving DecidableEq, Repr

/-- Modelled from the spec: STM32_MAX_GPIO (declared in the missing header
hw/cortexm/stm32-mcu.h); the spec enumerates GPIO ports A..G, so 7. -/
def STM32_MAX_GPIO : Nat := 7

/-- Modelled from the spec: STM32_MAX_USART (declared in the missing header
hw/cortexm/stm32-mcu.h); the spec enumerates serial ports 1..6, so 6. -/
def STM32_MAX_USART : Nat := 6

/-- MCU instance state (STM32MCUState): the slots the realize callback
fills and the reset callback walks.  The gpio and usart arrays hold
optional owned children indexed by port. -/
structure STM32MCUState where
  capabilities : Option STM32Capabilities
  hse_freq_hz : Nat
  lse_freq_hz : Nat
  container : Option String
  flash_alias : Option AliasRegion
  periph_bitband : Option Nat
  rcc : Option Child
  flash : Option Child
  pwr : Option Child
  gpio : List (Option Child)
  usart : List (Option Child)
deriving DecidableEq, Repr

/-- Zero-initialized instance state, as qdev leaves the struct before
the realize callback runs (arrays of NULL pointers, properties 0). -/
def initState : STM32MCUState :=
  { capabilities := none
    hse_freq_hz := 0
    lse_freq_hz := 0
    container := none
    flash_alias := none
    periph_bitband := none
    rcc := none
    flash := none
    pwr := none
    gpio := List.replicate STM32_MAX_GPIO none
    usart := List.replicate STM32_MAX_USART none }

/-- Host environment the composition runs in: whether the parent
(Cortex-M) realize succeeds, the configured flash size in KiB
(cm_state->flash_size_kb), the host MAX_SERIAL_PORTS bound, the
machine-supplied serial_hds array, and whether qemu_chr_new can still
produce a "null" chardev. -/
structure Env where
  parentOk : Bool
  flash_size_kb : Nat
  maxSerialPorts : Nat
  serial_hds : Nat → Option Chardev
  nullChrOk : Bool

/-- Observable side effects of the realize callback, in program order. -/
inductive Event
  | parentRealize
  | logFamily (label : String)
  | getContainer
  | createAliasRegion (base : Nat) (size : Nat) (readonly : Bool)
  | createBitband (base : Nat)
  | allocChild (name : String)
  | setIntProp (child : String) (prop : String) (value : Nat)
  | injectPtr (child : String) (prop : String)
  | newNullChardev (cname : String)
  | setChardev (child : String) (cname : String)
  | realizeChild (name : String)
deriving DecidableEq, Repr

/-- Result of the realize callback: success, a return with the parent
realize error propagated unchanged in errp, or a fatal abort
(assert / hw_error) with its message. -/
inductive RealizeResult
  | ok (s : STM32MCUState)
  | parentFailed (s : STM32MCUState)
  | fatal (msg : String)
deriving DecidableEq, Repr

/-- Read slot i of a child array (NULL pointer when out of range). -/
def slotGet (l : List (Option Child)) (i : Nat) : Option Child :=
  (l[i]?).getD none

/-- Family label resolution: the switch on capabilities->family; anything
unrecognized maps to "unknown". -/
def familyLabel : STM32Family → String
  | STM32Family.f1 => "F1"
  | STM32Family.f2 => "F2"
  | STM32Family.f3 => "F3"
  | STM32Family.f4 => "F4"
  | STM32Family.l1 => "L1"
  | STM32Family.other => "unknown"

/-- Child name "gpio[%c]" with character 'a' + index (97 = 'a'). -/
def gpioChildName (index : Nat) : String :=
  "gpio[" ++ String.mk [Char.ofNat (97 + index)] ++ "]"

/-- Child name "usart[%c]" with character '1' + index (49 = '1');
used for every serial port, UART4 and UART5 included. -/
def usartChildName (index : Nat) : String :=
  "usart[" ++ String.mk [Char.ofNat (49 + index)] ++ "]"

/-- Synthesized chardev name "serial%d" from the 0-based index. -/
def serialChardevName (index : Nat) : String :=
  "serial" ++ toString index

/-- hw_error message of the MAX_SERIAL_PORTS bound check. -/
def usartBoundErrorMsg : String :=
  "Cannot assign usart: QEMU supports only MAX_SERIAL_PORTS ports"

/-- hw_error message when no chardev can be obtained. -/
def chardevErrorMsg : String :=
  "Cannot assign serial port"

/-- assert(capabilities != NULL) failure message. -/
def assertCapabilitiesMsg : String :=
  "assertion failed: capabilities != NULL"

/-- create_gpio: allocate the child under the container, set port-index,
inject capabilities and rcc pointers, realize, store into gpio[index]. -/
def create_gpio (state : STM32MCUState) (index : Nat)
    (_capabilities : STM32Capabilities) : List Event × STM32MCUState :=
  let child_name := gpioChildName index
  let gpioChild : Child :=
    { name := child_name
      intProps := [("port-index", index)]
      hasCapabilities := true
      hasRccRef := true
      hasNvicRef := false
      chardev := none
      realized := true }
  ([Event.allocChild child_name,
    Event.setIntProp child_name "port-index" index,
    Event.injectPtr child_name "capabilities",
    Event.injectPtr child_name "rcc",
    Event.realizeChild child_name],
   { state with gpio := state.gpio.set index (some gpioChild) })

/-- Events create_usart performs before its MAX_SERIAL_PORTS check:
the child is allocated and port-index / capabilities / rcc / nvic are
already injected when the bound is tested. -/
def usartPreEvents (index : Nat) : List Event :=
  [Event.allocChild (usartChildName index),
   Event.setIntProp (usartChildName index) "port-index" index,
   Event.injectPtr (usartChildName index) "capabilities",
   Event.injectPtr (usartChildName index) "rcc",
   Event.injectPtr (usartChildName index) "nvic"]

/-- create_usart: allocate and inject, then check index against
MAX_SERIAL_PORTS (hw_error past the bound), then resolve the chardev
(serial_hds[index], else a synthesized "null" chardev named
"serial%d"; hw_error when even that fails), attach it, realize,
store into usart[index]. -/
def create_usart (env : Env) (state : STM32MCUState) (index : Nat)
    (_capabilities : STM32Capabilities) :
    List Event × Except String STM32MCUState :=
  let child_name := usartChildName index
  if env.maxSerialPorts ≤ index then
    (usartPreEvents index, Except.error usartBoundErrorMsg)
  else
    let chrRes : List Event × Option Chardev :=
      match env.serial_hds index with
      | some chr => ([], some chr)
      | none =>
          let cname := serialChardevName index
          if env.nullChrOk then
            ([Event.newNullChardev cname],
             some { name := cname, backend := "null" })
          else
            ([Event.newNullChardev cname], none)
    match chrRes with
    | (trC, some chr) =>
        let child : Child :=
          { name := child_name
            intProps := [("port-index", index)]
            hasCapabilities := true
            hasRccRef := true
            hasNvicRef := true
            chardev := some chr
            realized := true }
        (usartPreEvents index ++ trC ++
           [Event.setChardev child_name chr.name,
            Event.realizeChild child_name],
         Except.ok { state with usart := state.usart.set index (some child) })
    | (trC, none) =>
        (usartPreEvents index ++ trC, Except.error chardevErrorMsg)

/-- The RCC child: capabilities pointer plus the four frequency
properties (hsi/lsi from the descriptor, hse/lse from the instance). -/
def rccChild (state : STM32MCUState) (capabilities : STM32Capabilities) : Child :=
  { name := "rcc"
    intProps := [("hsi-freq-hz", capabilities.hsi_freq_hz),
                 ("lsi-freq-hz", capabilities.lsi_freq_hz),
                 ("hse-freq-hz", state.hse_freq_hz),
                 ("lse-freq-hz", state.lse_freq_hz)]
    hasCapabilities := true
    realized := true }

/-- The FLASH controller child: capabilities pointer only. -/
def flashChild : Child :=
  { name := "flash"
    hasCapabilities := true
    realized := true }

/-- The PWR child: capabilities pointer only. -/
def pwrChild : Child :=
  { name := "pwr"
    hasCapabilities := true
    realized := true }

/-- The deterministic straight-line part of the realize callback after a
successful parent realize, given a non-NULL descriptor: store the
descriptor, resolve and log the family label, acquire the "/stm32"
container, create the read-only flash alias at 0x08000000 sized
flash_size_kb * 1024, create the peripheral bitband at 0x40000000 when
declared, then construct RCC, FLASH and (when declared) PWR. -/
def realizeSetup (env : Env) (s0 : STM32MCUState)
    (capabilities : STM32Capabilities) : List Event × STM32MCUState :=
  let flash_size := env.flash_size_kb * 1024
  ([Event.logFamily (familyLabel capabilities.family),
    Event.getContainer,
    Event.createAliasRegion 0x08000000 flash_size true]
   ++ (if capabilities.has_periph_bitband
       then [Event.createBitband 0x40000000] else [])
   ++ [Event.allocChild "rcc",
       Event.injectPtr "rcc" "capabilities",
       Event.setIntProp "rcc" "hsi-freq-hz" capabilities.hsi_freq_hz,
       Event.setIntProp "rcc" "lsi-freq-hz" capabilities.lsi_freq_hz,
       Event.setIntProp "rcc" "hse-freq-hz" s0.hse_freq_hz,
       Event.setIntProp "rcc" "lse-freq-hz" s0.lse_freq_hz,
       Event.realizeChild "rcc",
       Event.allocChild "flash",
       Event.injectPtr "flash" "capabilities",
       Event.realizeChild "flash"]
   ++ (if capabilities.has_pwr
       then [Event.allocChild "pwr",
             Event.injectPtr "pwr" "capabilities",
             Event.realizeChild "pwr"]
       else []),
   { s0 with
     capabilities := some capabilities
     container := some "/stm32"
     flash_alias := some { base := 0x08000000, size := flash_size,
                           readonly := true, offsetInBacking := 0 }
     periph_bitband := if capabilities.has_periph_bitband
                       then some 0x40000000 else s0.periph_bitband
     rcc := some (rccChild s0 capabilities)
     flash := some flashChild
     pwr := if capabilities.has_pwr then some pwrChild else s0.pwr })

/-- The seven conditional GPIO constructions, in source order A..G:
each flag paired with its port index. -/
def gpioList (c : STM32Capabilities) : List (Bool × Nat) :=
  [(c.has_gpioa, 0), (c.has_gpiob, 1), (c.has_gpioc, 2), (c.has_gpiod, 3),
   (c.has_gpioe, 4), (c.has_gpiof, 5), (c.has_gpiog, 6)]

/-- The six conditional serial constructions, in source order
USART1, USART2, USART3, UART4, UART5, USART6. -/
def usartList (c : STM32Capabilities) : List (Bool × Nat) :=
  [(c.has_usart1, 0), (c.has_usart2, 1), (c.has_usart3, 2),
   (c.has_uart4, 3), (c.has_uart5, 4), (c.has_usart6, 5)]

/-- Run the conditional GPIO constructions in order (cannot fail). -/
def runGpios (capabilities : STM32Capabilities) :
    List (Bool × Nat) → STM32MCUState → List Event × STM32MCUState
  | [], s => ([], s)
  | (flag, i) :: rest, s =>
      if flag then
        let r := create_gpio s i capabilities
        let r2 := runGpios capabilities rest r.2
        (r.1 ++ r2.1, r2.2)
      else runGpios capabilities rest s

/-- Run the conditional serial constructions in order; a fatal
create_usart aborts the rest. -/
def runUsarts (env : Env) (capabilities : STM32Capabilities) :
    List (Bool × Nat) → STM32MCUState → List Event × Except String STM32MCUState
  | [], s => ([], Except.ok s)
  | (flag, i) :: rest, s =>
      if flag then
        match create_usart env s i capabilities with
        | (tr, Except.ok s') =>
            let r2 := runUsarts env capabilities rest s'
            (tr ++ r2.1, r2.2)
        | (tr, Except.error m) => (tr, Except.error m)
      else runUsarts env capabilities rest s

/-- stm32_mcu_realize_callback: parent realize first (a failure returns
immediately with the error propagated unchanged), assert the descriptor
is present, then the straight-line setup, the GPIO constructions and
the serial constructions. -/
def stm32_mcu_realize (env : Env) (s0 : STM32MCUState)
    (param_capabilities : Option STM32Capabilities) :
    List Event × RealizeResult :=
  if env.parentOk then
    match param_capabilities with
    | none => ([Event.parentRealize], RealizeResult.fatal assertCapabilitiesMsg)
    | some capabilities =>
        let rP := realizeSetup env s0 capabilities
        let rG := runGpios capabilities (gpioList capabilities) rP.2
        let rU := runUsarts env capabilities (usartList capabilities) rG.2
        let tr := Event.parentRealize :: (rP.1 ++ rG.1 ++ rU.1)
        match rU.2 with
        | Except.ok sF => (tr, RealizeResult.ok sF)
        | Except.error m => (tr, RealizeResult.fatal m)
  else ([Event.parentRealize], RealizeResult.parentFailed s0)

/-- Which child a forwarded device_reset call targets. -/
inductive SlotId
  | rcc
  | flash
  | pwr
  | gpio (i : Nat)
  | usart (i : Nat)
deriving DecidableEq, Repr

/-- Observable steps of the reset callback. -/
inductive ResetEvent
  | parent
  | dev (slot : SlotId)
deriving DecidableEq, Repr

/-- stm32_mcu_reset_callback: parent reset, then rcc and flash when
present, then the gpio array in index order, then the usart array in
index order; pwr is never visited. -/
def stm32_mcu_reset (state : STM32MCUState) : List ResetEvent :=
  ResetEvent.parent ::
    ((if state.rcc.isSome then [ResetEvent.dev SlotId.rcc] else []) ++
     (if state.flash.isSome then [ResetEvent.dev SlotId.flash] else []) ++
     (((List.range STM32_MAX_GPIO).filter
         (fun i => (slotGet state.gpio i).isSome)).map
        (fun i => ResetEvent.dev (SlotId.gpio i))) ++
     (((List.range STM32_MAX_USART).filter
         (fun i => (slotGet state.usart i).isSome)).map
        (fun i => ResetEvent.dev (SlotId.usart i))))

/-- N successive reset events against the same composed instance
(the callback never modifies the child slots). -/
def stm32_mcu_resetN : Nat → STM32MCUState → List ResetEvent
  | 0, _ => []
  | Nat.succ n, s => stm32_mcu_reset s ++ stm32_mcu_resetN n s

/-- stm32_mcu_memory_regions_create_callback: look up the parent
(Cortex-M) class and invoke its memory_regions_create, nothing else. -/
def stm32_mcu_memory_regions_create_callback {DevState : Type}
    (parent_memory_regions_create : DevState → DevState)
    (dev : DevState) : DevState :=
  parent_memory_regions_create dev

/-- Alias-region read semantics: a read at offset k of the alias is
served by the backing region at the alias offset plus k
(memory_region_init_alias with offset 0). -/
def aliasRead (r : AliasRegion) (backing : Nat → Nat) (k : Nat) : Nat :=
  backing (r.offsetInBacking + k)

/-- The claim's mapping of GPIO port index to presence flag. -/
def gpioFlag (c : STM32Capabilities) : Nat → Bool
  | 0 => c.has_gpioa
  | 1 => c.has_gpiob
  | 2 => c.has_gpioc
  | 3 => c.has_gpiod
  | 4 => c.has_gpioe
  | 5 => c.has_gpiof
  | 6 => c.has_gpiog
  | _ => false

/-- The claim's mapping of 0-based serial index to presence flag. -/
def usartFlag (c : STM32Capabilities) : Nat → Bool
  | 0 => c.has_usart1
  | 1 => c.has_usart2
  | 2 => c.has_usart3
  | 3 => c.has_uart4
  | 4 => c.has_uart5
  | 5 => c.has_usart6
  | _ => false

/-- Events that construct a child peripheral (qdev child allocation or
the bitband region). -/
def constructsChild : Event → Bool
  | Event.allocChild _ => true
  | Event.createBitband _ => true
  | _ => false

/-- Reading a set slot: the write sticks exactly when in range. -/
theorem slotGet_set (l : List (Option Child)) (j i : Nat) (v : Option Child) :
    slotGet (l.set j v) i = if j = i ∧ j < l.length then v else slotGet l i := by
  unfold slotGet
  rw [List.getElem?_set]
  by_cases hji : j = i
  · subst hji
    by_cases hl : j < l.length
    · simp [hl]
    · simp [hl, List.getElem?_eq_none (by omega : l.length ≤ j)]
  · simp [hji]

/-- Reading any slot of an all-none array gives none. -/
theorem slotGet_replicate (n i : Nat) :
    slotGet (List.replicate n (none : Option Child)) i = none := by
  unfold slotGet
  by_cases h : i < n
  · simp [List.getElem?_replicate, h]
  · rw [List.getElem?_eq_none (by simp [List.length_replicate]; omega)]
    rfl

/-- The GPIO construction loop touches only the gpio array. -/
theorem runGpios_only_gpio (caps : STM32Capabilities) :
    ∀ (l : List (Bool × Nat)) (s : STM32MCUState),
      (runGpios caps l s).2 = { s with gpio := (runGpios caps l s).2.gpio }
  | [], s => rfl
  | (flag, i) :: rest, s => by
      by_cases hf : flag = true
      · subst hf
        simpa [runGpios, create_gpio] using
          runGpios_only_gpio caps rest (create_gpio s i caps).2
      · simp only [Bool.not_eq_true] at hf
        subst hf
        simpa [runGpios] using runGpios_only_gpio caps rest s

/-- The GPIO construction loop preserves the gpio array length. -/
theorem runGpios_gpio_length (caps : STM32Capabilities) :
    ∀ (l : List (Bool × Nat)) (s : STM32MCUState),
      (runGpios caps l s).2.gpio.length = s.gpio.length
  | [], s => rfl
  | (flag, i) :: rest, s => by
      by_cases hf : flag = true
      · subst hf
        simp [runGpios, runGpios_gpio_length caps rest, create_gpio]
      · simp only [Bool.not_eq_true] at hf
        subst hf
        simp [runGpios, runGpios_gpio_length caps rest]

/-- Inversion of a successful create_usart: the new state is the old one
with usart[index] set to a realized child named from the index, carrying
some chardev. -/
theorem create_usart_ok (env : Env) (s : STM32MCUState) (index : Nat)
    (caps : STM32Capabilities) (tr : List Event) (s' : STM32MCUState)
    (h : create_usart env s index caps = (tr, Except.ok s')) :
    ∃ c : Child, c.name = usartChildName index ∧ c.chardev.isSome = true ∧
      s' = { s with usart := s.usart.set index (some c) } := by
  unfold create_usart at h
  by_cases hb : env.maxSerialPorts ≤ index
  · simp [hb] at h
  · simp only [hb, if_false, if_neg hb] at h
    cases hs : env.serial_hds index with
    | some chr =>
        rw [hs] at h
        simp only [Prod.mk.injEq, Except.ok.injEq] at h
        refine ⟨_, ?_, ?_, h.2.symm⟩ <;> rfl
    | none =>
        rw [hs] at h
        by_cases hn : env.nullChrOk = true
        · simp only [hn, if_true, Prod.mk.injEq, Except.ok.injEq] at h
          refine ⟨_, ?_, ?_, h.2.symm⟩ <;> rfl
        · simp only [Bool.not_eq_true] at hn
          simp [hn] at h

/-- The serial construction loop, when it succeeds, touches only the
usart array. -/
theorem runUsarts_ok_only_usart (env : Env) (caps : STM32Capabilities) :
    ∀ (l : List (Bool × Nat)) (s : STM32MCUState) (tr : List Event)
      (s' : STM32MCUState),
      runUsarts env caps l s = (tr, Except.ok s') →
      s' = { s with usart := s'.usart }
  | [], s, tr, s', h => by
      simp only [runUsarts, Prod.mk.injEq, Except.ok.injEq] at h
      rw [← h.2]
  | (flag, i) :: rest, s, tr, s', h => by
      by_cases hf : flag = true
      · subst hf
        simp only [runUsarts, if_true] at h
        rcases hc : create_usart env s i caps with ⟨trc, res⟩
        rw [hc] at h
        cases res with
        | error m => simp at h
        | ok s1 =>
            simp only [Prod.mk.injEq] at h
            obtain ⟨c, _, _, hs1⟩ := create_usart_ok env s i caps trc s1 hc
            have ih := runUsarts_ok_only_usart env caps rest s1
              (runUsarts env caps rest s1).1 s'
            have hr : runUsarts env caps rest s1 =
                ((runUsarts env caps rest s1).1, Except.ok s') := by
              rw [Prod.mk.injEq]
              exact ⟨rfl, h.2⟩
            have := ih hr
            rw [this, hs1]
      · simp only [Bool.not_eq_true] at hf
        subst hf
        have := runUsarts_ok_only_usart env caps rest s tr s'
        simp only [runUsarts] at h
        exact this h

/-- Slot population after the GPIO loop: slot i is filled exactly when
some enabled entry of the work list targets i (or it was already
filled). -/
theorem runGpios_slot_isSome (caps : STM32Capabilities) :
    ∀ (l : List (Bool × Nat)) (s : STM32MCUState),
      (∀ p ∈ l, p.2 < s.gpio.length) → ∀ i : Nat,
      (slotGet (runGpios caps l s).2.gpio i).isSome =
        (l.any (fun p => p.1 && p.2 == i) || (slotGet s.gpio i).isSome)
  | [], s, _, i => by simp [runGpios]
  | (flag, j) :: rest, s, hlen, i => by
      by_cases hf : flag = true
      · subst hf
        have hj : j < s.gpio.length := hlen (true, j) (by simp)
        have hrest : ∀ p ∈ rest, p.2 < (create_gpio s j caps).2.gpio.length := by
          intro p hp
          simp only [create_gpio, List.length_set]
          exact hlen p (by simp [hp])
        have ih := runGpios_slot_isSome caps rest (create_gpio s j caps).2 hrest i
        simp only [runGpios, if_true] at ih ⊢
        rw [ih]
        by_cases hji : j = i
        · subst hji
          simp [create_gpio, slotGet_set, hj]
        · have : (j == i) = false := by simp [hji]
          simp [create_gpio, slotGet_set, hji, this]
      · simp only [Bool.not_eq_true] at hf
        subst hf
        have ih := runGpios_slot_isSome caps rest s
          (fun p hp => hlen p (by simp [hp])) i
        simp [runGpios, ih, List.any_cons]

/-- Names after the GPIO loop: a filled slot i either kept its old value
or holds a child named from the port letter. -/
theorem runGpios_slot_name (caps : STM32Capabilities) :
    ∀ (l : List (Bool × Nat)) (s : STM32MCUState) (i : Nat),
      slotGet (runGpios caps l s).2.gpio i = slotGet s.gpio i ∨
      ∃ c : Child, slotGet (runGpios caps l s).2.gpio i = some c ∧
        c.name = gpioChildName i
  | [], s, i => Or.inl rfl
  | (flag, j) :: rest, s, i => by
      by_cases hf : flag = true
      · subst hf
        have ih := runGpios_slot_name caps rest (create_gpio s j caps).2 i
        simp only [runGpios, if_true]
        rcases ih with ih | ⟨c, hc, hn⟩
        · rw [ih]
          by_cases hji : j = i
          · subst hji
            by_cases hl : j < s.gpio.length
            · right
              refine ⟨{ name := gpioChildName j, intProps := [("port-index", j)],
                        hasCapabilities := true, hasRccRef := true,
                        hasNvicRef := false, chardev := none,
                        realized := true }, ?_, rfl⟩
              simp [create_gpio, slotGet_set, hl]
            · left
              simp [create_gpio, slotGet_set, hl]
          · left
            simp [create_gpio, slotGet_set, hji]
        · exact Or.inr ⟨c, hc, hn⟩
      · simp only [Bool.not_eq_true] at hf
        subst hf
        have ih := runGpios_slot_name caps rest s i
        simpa [runGpios] using ih

/-- Slot population after a successful serial loop. -/
theorem runUsarts_ok_slot_isSome (env : Env) (caps : STM32Capabilities) :
    ∀ (l : List (Bool × Nat)) (s : STM32MCUState) (tr : List Event)
      (s' : STM32MCUState),
      runUsarts env caps l s = (tr, Except.ok s') →
      (∀ p ∈ l, p.2 < s.usart.length) → ∀ i : Nat,
      (slotGet s'.usart i).isSome =
        (l.any (fun p => p.1 && p.2 == i) || (slotGet s.usart i).isSome)
  | [], s, tr, s', h, _, i => by
      simp only [runUsarts, Prod.mk.injEq, Except.ok.injEq] at h
      rw [← h.2]
      simp
  | (flag, j) :: rest, s, tr, s', h, hlen, i => by
      by_cases hf : flag = true
      · subst hf
        simp only [runUsarts, if_true] at h
        rcases hc : create_usart env s j caps with ⟨trc, res⟩
        rw [hc] at h
        cases res with
        | error m => simp at h
        | ok s1 =>
            simp only [Prod.mk.injEq] at h
            obtain ⟨c, hcn, hcd, hs1⟩ := create_usart_ok env s j caps trc s1 hc
            have hj : j < s.usart.length := hlen (true, j) (by simp)
            have hrest : ∀ p ∈ rest, p.2 < s1.usart.length := by
              intro p hp
              rw [hs1]
              simp only [List.length_set]
              exact hlen p (by simp [hp])
            have hr : runUsarts env caps rest s1 =
                ((runUsarts env caps rest s1).1, Except.ok s') := by
              rw [Prod.mk.injEq]
              exact ⟨rfl, h.2⟩
            have ih := runUsarts_ok_slot_isSome env caps rest s1
              (runUsarts env caps rest s1).1 s' hr hrest i
            rw [ih, hs1]
            by_cases hji : j = i
            · subst hji
              simp [slotGet_set, hj]
            · have : (j == i) = false := by simp [hji]
              simp [slotGet_set, hji, this]
      · simp only [Bool.not_eq_true] at hf
        subst hf
        simp only [runUsarts] at h
        have ih := runUsarts_ok_slot_isSome env caps rest s tr s' h
          (fun p hp => hlen p (by simp [hp])) i
        rw [ih]
        simp

/-- Names after a successful serial loop: a slot either kept its old
value or holds a child named "usart[...]" from the index. -/
theorem runUsarts_ok_slot_name (env : Env) (caps : STM32Capabilities) :
    ∀ (l : List (Bool × Nat)) (s : STM32MCUState) (tr : List Event)
      (s' : STM32MCUState),
      runUsarts env caps l s = (tr, Except.ok s') → ∀ i : Nat,
      slotGet s'.usart i = slotGet s.usart i ∨
      ∃ c : Child, slotGet s'.usart i = some c ∧ c.name = usartChildName i
  | [], s, tr, s', h, i => by
      simp only [runUsarts, Prod.mk.injEq, Except.ok.injEq] at h
      rw [← h.2]
      exact Or.inl rfl
  | (flag, j) :: rest, s, tr, s', h, i => by
      by_cases hf : flag = true
      · subst hf
        simp only [runUsarts, if_true] at h
        rcases hc : create_usart env s j caps with ⟨trc, res⟩
        rw [hc] at h
        cases res with
        | error m => simp at h
        | ok s1 =>
            simp only [Prod.mk.injEq] at h
            obtain ⟨c, hcn, hcd, hs1⟩ := create_usart_ok env s j caps trc s1 hc
            have hr : runUsarts env caps rest s1 =
                ((runUsarts env caps rest s1).1, Except.ok s') := by
              rw [Prod.mk.injEq]
              exact ⟨rfl, h.2⟩
            have ih := runUsarts_ok_slot_name env caps rest s1
              (runUsarts env caps rest s1).1 s' hr i
            rcases ih with ih | ⟨c2, hc2, hn2⟩
            · rw [ih, hs1]
              by_cases hji : j = i
              · subst hji
                by_cases hl : j < s.usart.length
                · right
                  refine ⟨c, ?_, hcn⟩
                  simp [slotGet_set, hl]
                · left
                  simp [slotGet_set, hl]
              · left
                simp [slotGet_set, hji]
            · exact Or.inr ⟨c2, hc2, hn2⟩
      · simp only [Bool.not_eq_true] at hf
        subst hf
        simp only [runUsarts] at h
        exact runUsarts_ok_slot_name env caps rest s tr s' h i

/-- Inversion of a successful realize: the parent step succeeded and the
final state is the one produced by the serial loop run after the setup
and GPIO phases. -/
theorem realize_ok_inv (env : Env) (s0 : STM32MCUState)
    (caps : STM32Capabilities) (tr : List Event) (s : STM32MCUState)
    (h : stm32_mcu_realize env s0 (some caps) = (tr, RealizeResult.ok s)) :
    env.parentOk = true ∧
    ∃ trU : List Event,
      runUsarts env caps (usartList caps)
        (runGpios caps (gpioList caps) (realizeSetup env s0 caps).2).2 =
        (trU, Except.ok s) := by
  unfold stm32_mcu_realize at h
  by_cases hp : env.parentOk = true
  · refine ⟨hp, ?_⟩
    simp only [hp, if_true] at h
    rcases hu : runUsarts env caps (usartList caps)
        (runGpios caps (gpioList caps) (realizeSetup env s0 caps).2).2
      with ⟨trU, res⟩
    rw [hu] at h
    cases res with
    | ok sF =>
        simp only [Prod.mk.injEq, RealizeResult.ok.injEq] at h
        exact ⟨trU, by rw [h.2]⟩
    | error m => simp at h
  · simp only [Bool.not_eq_true] at hp
    simp [hp] at h

/-- A successfully realized state is the setup state with only the gpio
and usart arrays further modified. -/
theorem realize_ok_state (env : Env) (s0 : STM32MCUState)
    (caps : STM32Capabilities) (tr : List Event) (s : STM32MCUState)
    (h : stm32_mcu_realize env s0 (some caps) = (tr, RealizeResult.ok s)) :
    s = { (realizeSetup env s0 caps).2 with gpio := s.gpio, usart := s.usart } := by
  obtain ⟨hp, trU, hu⟩ := realize_ok_inv env s0 caps tr s h
  have h1 := runUsarts_ok_only_usart env caps (usartList caps)
    (runGpios caps (gpioList caps) (realizeSetup env s0 caps).2).2 trU s hu
  have h2 := runGpios_only_gpio caps (gpioList caps) (realizeSetup env s0 caps).2
  rw [h1, h2]

/-- The GPIO work list targets slot i (for i in range) exactly when the
claim's flag for i is set. -/
theorem gpioList_any (c : STM32Capabilities) (i : Nat) (h : i < STM32_MAX_GPIO) :
    ((gpioList c).any (fun p => p.1 && p.2 == i)) = gpioFlag c i := by
  unfold STM32_MAX_GPIO at h
  interval_cases i <;> simp [gpioList, gpioFlag]

/-- The serial work list targets slot j (for j in range) exactly when the
claim's flag for j is set. -/
theorem usartList_any (c : STM32Capabilities) (j : Nat) (h : j < STM32_MAX_USART) :
    ((usartList c).any (fun p => p.1 && p.2 == j)) = usartFlag c j := by
  unfold STM32_MAX_USART at h
  interval_cases j <;> simp [usartList, usartFlag]

/-- Every GPIO work-list index is within the 7-slot array. -/
theorem gpioList_idx_lt (c : STM32Capabilities) :
    ∀ p ∈ gpioList c, p.2 < STM32_MAX_GPIO := by
  intro p hp
  simp only [gpioList] at hp
  fin_cases hp <;> simp [ STM32_MAX_GPIO]

/-- Every serial work-list index is within the 6-slot array. -/
theorem usartList_idx_lt (c : STM32Capabilities) :
    ∀ p ∈ usartList c, p.2 < STM32_MAX_USART := by
  intro p hp
  simp only [usartList] at hp
  fin_cases hp <;> simp [STM32_MAX_USART]

/-- A fixture environment: parent realize succeeds, 1 KiB flash, six host
serial ports, no machine-supplied chardevs, "null" chardevs obtainable. -/
def env0 : Env :=
  { parentOk := true
    flash_size_kb := 1
    maxSerialPorts := 6
    serial_hds := fun _ => none
    nullChrOk := true }

/-- A fixture descriptor with every presence flag false. -/
def capsBase : STM32Capabilities :=
  { family := STM32Family.f4
    hsi_freq_hz := 16000000
    lsi_freq_hz := 32000
    has_periph_bitband := false
    has_pwr := false
    has_gpioa := false
    has_gpiob := false
    has_gpioc := false
    has_gpiod := false
    has_gpioe := false
    has_gpiof := false
    has_gpiog := false
    has_usart1 := false
    has_usart2 := false
    has_usart3 := false
    has_uart4 := false
    has_uart5 := false
    has_usart6 := false }

/-- Fixture: gpio A and B, usart1, pwr and bitband declared. -/
def capsA : STM32Capabilities :=
  { capsBase with has_gpioa := true, has_gpiob := true, has_usart1 := true,
                  has_pwr := true, has_periph_bitband := true }

/-- The composition run of capsA under env0. -/
def resultA : List Event × RealizeResult :=
  stm32_mcu_realize env0 initState (some capsA)

/-- The composed state of the capsA run. -/
def stateA : STM32MCUState :=
  match resultA.2 with
  | RealizeResult.ok s => s
  | _ => initState

/-- C1: for every capability descriptor, a composition that completes
populates exactly the child slots whose presence flag is true: each GPIO
slot i in A..G iff the gpio flag for i, each serial slot j in 1..6 iff
the usart/uart flag for j, the power-controller slot iff has_pwr, and
the peripheral bitband region iff has_periph_bitband. -/
theorem realize_populates_exactly_flagged_slots
    (env : Env) (caps : STM32Capabilities) (tr : List Event)
    (s : STM32MCUState)
    (h : stm32_mcu_realize env initState (some caps) = (tr, RealizeResult.ok s)) :
    (∀ i, i < STM32_MAX_GPIO →
        (slotGet s.gpio i).isSome = gpioFlag caps i) ∧
    (∀ j, j < STM32_MAX_USART →
        (slotGet s.usart j).isSome = usartFlag caps j) ∧
    s.pwr.isSome = caps.has_pwr ∧
    s.periph_bitband.isSome = caps.has_periph_bitband := by
  obtain ⟨hp, trU, hu⟩ := realize_ok_inv env initState caps tr s h
  have hstate := realize_ok_state env initState caps tr s h
  have hGonly := runGpios_only_gpio caps (gpioList caps)
    (realizeSetup env initState caps).2
  have hsetupGpio : (realizeSetup env initState caps).2.gpio =
      List.replicate STM32_MAX_GPIO none := rfl
  have hsetupUsart : (realizeSetup env initState caps).2.usart =
      List.replicate STM32_MAX_USART none := rfl
  have hGlen : ∀ p ∈ gpioList caps,
      p.2 < (realizeSetup env initState caps).2.gpio.length := by
    intro p hp2
    rw [hsetupGpio, List.length_replicate]
    exact gpioList_idx_lt caps p hp2
  refine ⟨?_, ?_, ?_, ?_⟩
  · intro i hi
    have hG := runGpios_slot_isSome caps (gpioList caps)
      (realizeSetup env initState caps).2 hGlen i
    have hsg : s.gpio =
        (runGpios caps (gpioList caps) (realizeSetup env initState caps).2).2.gpio := by
      have := runUsarts_ok_only_usart env caps (usartList caps)
        (runGpios caps (gpioList caps) (realizeSetup env initState caps).2).2
        trU s hu
      rw [this]
    rw [hsg, hG, hsetupGpio, slotGet_replicate, gpioList_any caps i hi]
    simp
  · intro j hj
    have hUlen : ∀ p ∈ usartList caps,
        p.2 < (runGpios caps (gpioList caps)
          (realizeSetup env initState caps).2).2.usart.length := by
      intro p hp2
      rw [hGonly, hsetupUsart, List.length_replicate]
      exact usartList_idx_lt caps p hp2
    have hU := runUsarts_ok_slot_isSome env caps (usartList caps)
      (runGpios caps (gpioList caps) (realizeSetup env initState caps).2).2
      trU s hu hUlen j
    rw [hU, hGonly, hsetupUsart, slotGet_replicate, usartList_any caps j hj]
    simp
  · rw [hstate]
    show (realizeSetup env initState caps).2.pwr.isSome = caps.has_pwr
    simp only [realizeSetup]
    cases hpw : caps.has_pwr <;> simp [hpw, initState]
  · rw [hstate]
    show (realizeSetup env initState caps).2.periph_bitband.isSome =
      caps.has_periph_bitband
    simp only [realizeSetup]
    cases hbb : caps.has_periph_bitband <;> simp [hbb, initState]

/-- Witness for C1: the capsA fixture composes successfully and its
gpio[a] slot is populated as its flag demands. -/
theorem realize_populates_exactly_flagged_slots_witness :
    (slotGet stateA.gpio 0).isSome = gpioFlag capsA 0 :=
  (realize_populates_exactly_flagged_slots env0 capsA resultA.1 stateA
    (by decide)).1 0 (by decide)

/-- Decidable equality on factory results, for concrete evaluation. -/
instance : DecidableEq (Except String STM32MCUState) := fun a b => by
  cases a with
  | error ea =>
      cases b with
      | error eb => exact decidable_of_iff (ea = eb) (by simp)
      | ok sb => exact Decidable.isFalse (by simp)
  | ok sa =>
      cases b with
      | error eb => exact Decidable.isFalse (by simp)
      | ok sb => exact decidable_of_iff (sa = sb) (by simp)

/-- Fixture environment whose host backs zero serial ports. -/
def envNoSerial : Env :=
  { env0 with maxSerialPorts := 0 }

/-- Fixture environment whose parent realize step fails. -/
def envParentFails : Env :=
  { env0 with parentOk := false }

/-- C2 counterexample: with MAX_SERIAL_PORTS = 0, composing serial port 0
does fail fatally, but the child node has already been allocated and its
capabilities dependency injected when the fatal error is reported —
refuting "the fatal error is reported before any allocation for that
port happens". -/
theorem create_usart_bound_check_cex :
    (create_usart envNoSerial initState 0 capsBase).2 =
      Except.error usartBoundErrorMsg ∧
    Event.allocChild "usart[1]" ∈ (create_usart envNoSerial initState 0 capsBase).1 ∧
    Event.injectPtr "usart[1]" "capabilities" ∈
      (create_usart envNoSerial initState 0 capsBase).1 := by
  decide

/-- C2 (amended): invoking the serial factory with index ≥
MAX_SERIAL_PORTS always fails fatally, but only after the child node is
allocated and the port-index / capabilities / rcc / nvic dependencies
are injected; the bound check does come before chardev resolution,
before the node is realized, and before any slot is stored. -/
theorem create_usart_bound_check (env : Env) (s : STM32MCUState)
    (index : Nat) (caps : STM32Capabilities)
    (h : env.maxSerialPorts ≤ index) :
    create_usart env s index caps =
      (usartPreEvents index, Except.error usartBoundErrorMsg) ∧
    Event.allocChild (usartChildName index) ∈
      (create_usart env s index caps).1 ∧
    Event.injectPtr (usartChildName index) "capabilities" ∈
      (create_usart env s index caps).1 ∧
    (∀ n, Event.realizeChild n ∉ (create_usart env s index caps).1) ∧
    (∀ n cn, Event.setChardev n cn ∉ (create_usart env s index caps).1) ∧
    (∀ cn, Event.newNullChardev cn ∉ (create_usart env s index caps).1) := by
  have he : create_usart env s index caps =
      (usartPreEvents index, Except.error usartBoundErrorMsg) := by
    simp [create_usart, h]
  refine ⟨he, ?_, ?_, ?_, ?_, ?_⟩ <;> rw [he] <;> simp [usartPreEvents]

/-- Witness for the amended C2 at a concrete out-of-range index. -/
theorem create_usart_bound_check_witness :
    create_usart envNoSerial initState 0 capsBase =
      (usartPreEvents 0, Except.error usartBoundErrorMsg) :=
  (create_usart_bound_check envNoSerial initState 0 capsBase (by decide)).1

/-- C7: within the host bound, the serial factory uses the
machine-supplied stream for its index when there is one, otherwise
synthesizes a discard ("null") stream named "serial" ++ index, and
fails fatally when even that stream cannot be obtained. -/
theorem create_usart_chardev_resolution (env : Env) (s : STM32MCUState)
    (index : Nat) (caps : STM32Capabilities)
    (hidx : index < env.maxSerialPorts) :
    (∀ chr, env.serial_hds index = some chr →
       ∃ c : Child, (create_usart env s index caps).2 =
           Except.ok { s with usart := s.usart.set index (some c) } ∧
         c.chardev = some chr) ∧
    (env.serial_hds index = none → env.nullChrOk = true →
       ∃ c : Child, (create_usart env s index caps).2 =
           Except.ok { s with usart := s.usart.set index (some c) } ∧
         c.chardev = some { name := serialChardevName index, backend := "null" } ∧
         Event.newNullChardev (serialChardevName index) ∈
           (create_usart env s index caps).1) ∧
    (env.serial_hds index = none → env.nullChrOk = false →
       (create_usart env s index caps).2 = Except.error chardevErrorMsg) := by
  have hb : ¬ env.maxSerialPorts ≤ index := by omega
  refine ⟨?_, ?_, ?_⟩
  · intro chr hs
    refine ⟨{ name := usartChildName index, intProps := [("port-index", index)],
              hasCapabilities := true, hasRccRef := true, hasNvicRef := true,
              chardev := some chr, realized := true }, ?_, rfl⟩
    simp [create_usart, hb, hs]
  · intro hs hn
    refine ⟨{ name := usartChildName index, intProps := [("port-index", index)],
              hasCapabilities := true, hasRccRef := true, hasNvicRef := true,
              chardev := some { name := serialChardevName index,
                                backend := "null" },
              realized := true }, ?_, rfl, ?_⟩
    · simp [create_usart, hb, hs, hn]
    · simp [create_usart, hb, hs, hn, usartPreEvents]
  · intro hs hn
    simp [create_usart, hb, hs, hn]

/-- Witness for C7: under env0 (no machine streams, "null" obtainable),
serial port 0 is bound to a synthesized discard stream "serial0". -/
theorem create_usart_chardev_resolution_witness :
    ∃ c : Child, (create_usart env0 initState 0 capsBase).2 =
        Except.ok { initState with usart := initState.usart.set 0 (some c) } ∧
      c.chardev = some { name := serialChardevName 0, backend := "null" } ∧
      Event.newNullChardev (serialChardevName 0) ∈
        (create_usart env0 initState 0 capsBase).1 :=
  (create_usart_chardev_resolution env0 initState 0 capsBase
    (by decide)).2.1 rfl rfl

/-- C8: with the parent step succeeding, composing with a NULL capability
descriptor aborts fatally on the assert, and the trace up to that point
holds no child-constructing event (no allocation, no bitband). -/
theorem realize_null_descriptor_fatal (env : Env) (s0 : STM32MCUState)
    (hp : env.parentOk = true) :
    stm32_mcu_realize env s0 none =
      ([Event.parentRealize], RealizeResult.fatal assertCapabilitiesMsg) ∧
    ∀ e ∈ (stm32_mcu_realize env s0 none).1, constructsChild e = false := by
  have he : stm32_mcu_realize env s0 none =
      ([Event.parentRealize], RealizeResult.fatal assertCapabilitiesMsg) := by
    simp [stm32_mcu_realize, hp]
  refine ⟨he, ?_⟩
  rw [he]
  intro e he2
  simp only [List.mem_singleton] at he2
  subst he2
  rfl

/-- Witness for C8 under the concrete env0. -/
theorem realize_null_descriptor_fatal_witness :
    stm32_mcu_realize env0 initState none =
      ([Event.parentRealize], RealizeResult.fatal assertCapabilitiesMsg) :=
  (realize_null_descriptor_fatal env0 initState (by decide)).1

/-- C9: when the inherited base construction step fails, the composer
returns immediately with the failure propagated unchanged and the
instance state untouched: the trace holds only the parent-realize call
(no family resolution, no container, no alias region, no child). -/
theorem realize_parent_failure_propagates (env : Env) (s0 : STM32MCUState)
    (pcaps : Option STM32Capabilities) (hp : env.parentOk = false) :
    stm32_mcu_realize env s0 pcaps =
      ([Event.parentRealize], RealizeResult.parentFailed s0) := by
  simp [stm32_mcu_realize, hp]

/-- Witness for C9 under a concrete failing-parent environment. -/
theorem realize_parent_failure_propagates_witness :
    stm32_mcu_realize envParentFails initState (some capsA) =
      ([Event.parentRealize], RealizeResult.parentFailed initState) :=
  realize_parent_failure_propagates envParentFails initState (some capsA)
    (by decide)

/-- Fixture: UART4 and UART5 declared present. -/
def capsSerial45 : STM32Capabilities :=
  { capsBase with has_uart4 := true, has_uart5 := true }

/-- The composition run of capsSerial45 under env0. -/
def resultB : List Event × RealizeResult :=
  stm32_mcu_realize env0 initState (some capsSerial45)

/-- The composed state of the capsSerial45 run. -/
def stateB : STM32MCUState :=
  match resultB.2 with
  | RealizeResult.ok s => s
  | _ => initState

/-- C5 counterexample: composing with UART4 and UART5 present names those
children "usart[4]" and "usart[5]" — not the "uart[4]"/"uart[5]" naming
variant the claim asserts for serial ports 4 and 5. -/
theorem serial_children_named_usart_cex :
    resultB.2 = RealizeResult.ok stateB ∧
    (slotGet stateB.usart 3).map Child.name = some "usart[4]" ∧
    ¬ ((slotGet stateB.usart 3).map Child.name = some "uart[4]") ∧
    (slotGet stateB.usart 4).map Child.name = some "usart[5]" ∧
    ¬ ((slotGet stateB.usart 4).map Child.name = some "uart[5]") := by
  decide

/-- C5 (amended): under the instance's "/stm32" container, every GPIO
child is named "gpio[a]".."gpio[g]" from its port letter, and every
serial child — serial ports 4 and 5 included — is named
"usart[1]".."usart[6]" from its 1-based port number. -/
theorem realize_child_names (env : Env) (caps : STM32Capabilities)
    (tr : List Event) (s : STM32MCUState)
    (h : stm32_mcu_realize env initState (some caps) = (tr, RealizeResult.ok s)) :
    s.container = some "/stm32" ∧
    (∀ i c, slotGet s.gpio i = some c → c.name = gpioChildName i) ∧
    (∀ j c, slotGet s.usart j = some c → c.name = usartChildName j) ∧
    gpioChildName 0 = "gpio[a]" ∧ gpioChildName 6 = "gpio[g]" ∧
    usartChildName 0 = "usart[1]" ∧ usartChildName 2 = "usart[3]" ∧
    usartChildName 3 = "usart[4]" ∧ usartChildName 4 = "usart[5]" ∧
    usartChildName 5 = "usart[6]" := by
  obtain ⟨hp, trU, hu⟩ := realize_ok_inv env initState caps tr s h
  have hstate := realize_ok_state env initState caps tr s h
  have hGonly := runGpios_only_gpio caps (gpioList caps)
    (realizeSetup env initState caps).2
  have hsg : s.gpio =
      (runGpios caps (gpioList caps) (realizeSetup env initState caps).2).2.gpio := by
    have := runUsarts_ok_only_usart env caps (usartList caps)
      (runGpios caps (gpioList caps) (realizeSetup env initState caps).2).2
      trU s hu
    rw [this]
  refine ⟨?_, ?_, ?_, ?_, ?_, ?_, ?_, ?_, ?_, ?_⟩
  · rw [hstate]
    rfl
  · intro i c hc
    have := runGpios_slot_name caps (gpioList caps)
      (realizeSetup env initState caps).2 i
    rcases this with h2 | ⟨c2, hc2, hn2⟩
    · rw [hsg, h2] at hc
      have : slotGet (realizeSetup env initState caps).2.gpio i = none := by
        show slotGet (List.replicate STM32_MAX_GPIO none) i = none
        exact slotGet_replicate _ _
      rw [this] at hc
      cases hc
    · rw [hsg, hc2] at hc
      cases hc
      exact hn2
  · intro j c hc
    have := runUsarts_ok_slot_name env caps (usartList caps)
      (runGpios caps (gpioList caps) (realizeSetup env initState caps).2).2
      trU s hu j
    rcases this with h2 | ⟨c2, hc2, hn2⟩
    · rw [h2, hGonly] at hc
      have : slotGet (realizeSetup env initState caps).2.usart j = none := by
        show slotGet (List.replicate STM32_MAX_USART none) j = none
        exact slotGet_replicate _ _
      rw [this] at hc
      cases hc
    · rw [hc2] at hc
      cases hc
      exact hn2
  · decide
  · decide
  · decide
  · decide
  · decide
  · decide
  · decide

/-- Witness for the amended C5: in the capsSerial45 run the UART4 slot
holds a child named "usart[4]". -/
theorem realize_child_names_witness :
    (match slotGet stateB.usart 3 with
     | some c => c.name
     | none => "") = usartChildName 3 := by
  have hnm := (realize_child_names env0 capsSerial45 resultB.1 stateB
    (by decide)).2.2.1
  rcases hs : slotGet stateB.usart 3 with _ | c
  · exact absurd hs (by decide)
  · exact hnm 3 c hs

/-- C6: for every composition that gets past the descriptor check — any
chip family, any flags — the flash alias region is created with base
0x08000000, size flash_size_kb * 1024 and the read-only mark; and on a
completed composition the stored region has exactly those parameters
and forwards every in-range read at offset k to the canonical backing
store at offset k. -/
theorem alias_region_unconditional (env : Env) (caps : STM32Capabilities)
    (s0 : STM32MCUState) (hp : env.parentOk = true) :
    Event.createAliasRegion 0x08000000 (env.flash_size_kb * 1024) true ∈
      (stm32_mcu_realize env s0 (some caps)).1 ∧
    (∀ tr s, stm32_mcu_realize env s0 (some caps) = (tr, RealizeResult.ok s) →
      ∃ r : AliasRegion, s.flash_alias = some r ∧ r.base = 0x08000000 ∧
        r.size = env.flash_size_kb * 1024 ∧ r.readonly = true ∧
        ∀ (backing : Nat → Nat) (k : Nat), k < r.size →
          aliasRead r backing k = backing k) := by
  constructor
  · unfold stm32_mcu_realize
    simp only [hp, if_true]
    rcases hru : runUsarts env caps (usartList caps)
        (runGpios caps (gpioList caps) (realizeSetup env s0 caps).2).2
      with ⟨trU, res⟩
    cases res <;> simp [realizeSetup]
  · intro tr s h
    have hstate := realize_ok_state env s0 caps tr s h
    refine ⟨{ base := 0x08000000, size := env.flash_size_kb * 1024,
              readonly := true, offsetInBacking := 0 }, ?_, rfl, rfl, rfl, ?_⟩
    · rw [hstate]
      rfl
    · intro backing k _
      simp [aliasRead]

/-- Witness for C6: the alias-creation event of a concrete run, with
base 0x08000000, size 1024 and the read-only mark. -/
theorem alias_region_unconditional_witness :
    Event.createAliasRegion 0x08000000 (env0.flash_size_kb * 1024) true ∈
      (stm32_mcu_realize env0 initState (some capsBase)).1 :=
  (alias_region_unconditional env0 capsBase initState (by decide)).1

/-- A mapped list contains none of an element outside the map's image. -/
theorem count_map_ne_zero (g : Nat → ResetEvent) (x : ResetEvent)
    (hx : ∀ k, ¬ g k = x) (l : List Nat) : (l.map g).count x = 0 := by
  rw [List.count_eq_zero]
  intro hmem
  rcases List.mem_map.mp hmem with ⟨k, _, hk⟩
  exact hx k hk

/-- Occurrences of g i in the image of a filtered range under an
injective g: one when i is in range and selected, none otherwise. -/
theorem count_map_filter_range (g : Nat → ResetEvent)
    (hg : ∀ a b, g a = g b → a = b) (p : Nat → Bool) :
    ∀ (n i : Nat), (((List.range n).filter p).map g).count (g i) =
      if i < n ∧ p i = true then 1 else 0
  | 0, i => by simp
  | Nat.succ n, i => by
      rw [List.range_succ, List.filter_append, List.map_append,
        List.count_append, count_map_filter_range g hg p n i]
      by_cases hpn : p n = true
      · simp only [List.filter_cons, hpn, if_true, List.filter_nil,
          List.map_cons, List.map_nil]
        by_cases hin : i = n
        · subst hin
          have h1 : ¬ (i < i ∧ p i = true) := by omega
          simp [h1, hpn]
        · have h2 : ¬ g i = g n := fun hc => hin (hg i n hc)
          have h3 : (i < n ∧ p i = true) ↔ (i < n + 1 ∧ p i = true) := by
            constructor
            · rintro ⟨ha, hb⟩
              exact ⟨by omega, hb⟩
            · rintro ⟨ha, hb⟩
              refine ⟨?_, hb⟩
              rcases Nat.lt_succ_iff_lt_or_eq.mp ha with h | h
              · exact h
              · exact absurd h hin
          rw [if_congr h3 rfl rfl]
          simp [List.count_cons, h2]
      · simp only [Bool.not_eq_true] at hpn
        simp only [List.filter_cons, hpn, Bool.false_eq_true, if_false,
          List.filter_nil, List.map_nil, List.count_nil]
        by_cases hin : i = n
        · subst hin
          simp [hpn]
        · have h3 : (i < n ∧ p i = true) ↔ (i < n + 1 ∧ p i = true) := by
            constructor
            · rintro ⟨ha, hb⟩
              exact ⟨by omega, hb⟩
            · rintro ⟨ha, hb⟩
              refine ⟨?_, hb⟩
              rcases Nat.lt_succ_iff_lt_or_eq.mp ha with h | h
              · exact h
              · exact absurd h hin
          rw [if_congr h3 rfl rfl]
          simp only [Nat.succ_eq_add_one]
          omega

/-- N successive resets are N copies of the single reset walk. -/
theorem resetN_eq_flatten (s : STM32MCUState) :
    ∀ N : Nat, stm32_mcu_resetN N s =
      (List.replicate N (stm32_mcu_reset s)).flatten
  | 0 => rfl
  | Nat.succ n => by
      show stm32_mcu_reset s ++ stm32_mcu_resetN n s = _
      rw [resetN_eq_flatten s n, List.replicate_succ, List.flatten_cons]

/-- C3: every reset forwards the signal as the fixed ordered walk —
the inherited base reset first, then the clock controller when present,
then the flash controller when present, then exactly the populated GPIO
slots in strictly ascending index order, then exactly the populated
serial slots in strictly ascending index order — and N resets in
sequence are exactly N identical such walks (never an error). -/
theorem reset_ordered_walk (s : STM32MCUState) (N : Nat) :
    stm32_mcu_resetN N s = (List.replicate N (stm32_mcu_reset s)).flatten ∧
    ∃ g u : List Nat,
      stm32_mcu_reset s =
        ResetEvent.parent ::
          ((if s.rcc.isSome then [ResetEvent.dev SlotId.rcc] else []) ++
           (if s.flash.isSome then [ResetEvent.dev SlotId.flash] else []) ++
           g.map (fun i => ResetEvent.dev (SlotId.gpio i)) ++
           u.map (fun j => ResetEvent.dev (SlotId.usart j))) ∧
      List.Pairwise (fun a b => a < b) g ∧
      (∀ i, i ∈ g ↔ i < STM32_MAX_GPIO ∧ (slotGet s.gpio i).isSome = true) ∧
      List.Pairwise (fun a b => a < b) u ∧
      (∀ j, j ∈ u ↔ j < STM32_MAX_USART ∧ (slotGet s.usart j).isSome = true) := by
  refine ⟨resetN_eq_flatten s N,
    (List.range STM32_MAX_GPIO).filter (fun i => (slotGet s.gpio i).isSome),
    (List.range STM32_MAX_USART).filter (fun i => (slotGet s.usart i).isSome),
    rfl, ?_, ?_, ?_, ?_⟩
  · exact (List.pairwise_lt_range STM32_MAX_GPIO).filter _
  · intro i
    simp [List.mem_filter, List.mem_range, and_comm]
  · exact (List.pairwise_lt_range STM32_MAX_USART).filter _
  · intro j
    simp [List.mem_filter, List.mem_range, and_comm]

/-- Witness for C3: two resets of a concrete composed instance are two
copies of the single ordered walk. -/
theorem reset_ordered_walk_witness :
    stm32_mcu_resetN 2 stateA =
      (List.replicate 2 (stm32_mcu_reset stateA)).flatten :=
  (reset_ordered_walk stateA 2).1

/-- Fixture: power controller and gpio A declared present. -/
def capsPwr : STM32Capabilities :=
  { capsBase with has_pwr := true, has_gpioa := true }

/-- The composition run of capsPwr under env0. -/
def resultP : List Event × RealizeResult :=
  stm32_mcu_realize env0 initState (some capsPwr)

/-- The composed state of the capsPwr run. -/
def stateP : STM32MCUState :=
  match resultP.2 with
  | RealizeResult.ok s => s
  | _ => initState

/-- C4 counterexample: an instance composed with has_pwr = true holds a
live power-controller child, yet a reset event forwards zero resets to
it — refuting "the reset signal reaches every live child exactly once
per event". -/
theorem reset_misses_pwr_cex :
    resultP.2 = RealizeResult.ok stateP ∧
    stateP.pwr.isSome = true ∧
    (stm32_mcu_reset stateP).count (ResetEvent.dev SlotId.pwr) = 0 := by
  decide

/-- C4 (amended): per reset event, the base reset runs once and the
clock controller, flash controller and every populated GPIO and serial
slot each receive exactly one forwarded reset; a constructed power
controller receives none — the reset callback never visits the pwr
slot. -/
theorem reset_forward_counts (s : STM32MCUState) :
    (stm32_mcu_reset s).count ResetEvent.parent = 1 ∧
    (stm32_mcu_reset s).count (ResetEvent.dev SlotId.rcc) =
      (if s.rcc.isSome then 1 else 0) ∧
    (stm32_mcu_reset s).count (ResetEvent.dev SlotId.flash) =
      (if s.flash.isSome then 1 else 0) ∧
    (∀ i, i < STM32_MAX_GPIO →
      (stm32_mcu_reset s).count (ResetEvent.dev (SlotId.gpio i)) =
        (if (slotGet s.gpio i).isSome then 1 else 0)) ∧
    (∀ j, j < STM32_MAX_USART →
      (stm32_mcu_reset s).count (ResetEvent.dev (SlotId.usart j)) =
        (if (slotGet s.usart j).isSome then 1 else 0)) ∧
    (stm32_mcu_reset s).count (ResetEvent.dev SlotId.pwr) = 0 := by
  have hginj : ∀ a b : Nat,
      ResetEvent.dev (SlotId.gpio a) = ResetEvent.dev (SlotId.gpio b) → a = b := by
    intro a b hab
    simpa using hab
  have huinj : ∀ a b : Nat,
      ResetEvent.dev (SlotId.usart a) = ResetEvent.dev (SlotId.usart b) → a = b := by
    intro a b hab
    simpa using hab
  refine ⟨?_, ?_, ?_, ?_, ?_, ?_⟩
  · have hg0 := count_map_ne_zero (fun k => ResetEvent.dev (SlotId.gpio k))
      ResetEvent.parent (fun k => by simp)
    have hu0 := count_map_ne_zero (fun k => ResetEvent.dev (SlotId.usart k))
      ResetEvent.parent (fun k => by simp)
    cases hr : s.rcc.isSome <;> cases hf : s.flash.isSome <;>
      simp [stm32_mcu_reset, hr, hf, List.count_append, List.count_cons, hg0, hu0]
  · have hg0 := count_map_ne_zero (fun k => ResetEvent.dev (SlotId.gpio k))
      (ResetEvent.dev SlotId.rcc) (fun k => by simp)
    have hu0 := count_map_ne_zero (fun k => ResetEvent.dev (SlotId.usart k))
      (ResetEvent.dev SlotId.rcc) (fun k => by simp)
    cases hr : s.rcc.isSome <;> cases hf : s.flash.isSome <;>
      simp [stm32_mcu_reset, hr, hf, List.count_append, List.count_cons, hg0, hu0]
  · have hg0 := count_map_ne_zero (fun k => ResetEvent.dev (SlotId.gpio k))
      (ResetEvent.dev SlotId.flash) (fun k => by simp)
    have hu0 := count_map_ne_zero (fun k => ResetEvent.dev (SlotId.usart k))
      (ResetEvent.dev SlotId.flash) (fun k => by simp)
    cases hr : s.rcc.isSome <;> cases hf : s.flash.isSome <;>
      simp [stm32_mcu_reset, hr, hf, List.count_append, List.count_cons, hg0, hu0]
  · intro i hi
    have hmain := count_map_filter_range
      (fun k => ResetEvent.dev (SlotId.gpio k)) hginj
      (fun k => (slotGet s.gpio k).isSome) STM32_MAX_GPIO i
    have hu0 := count_map_ne_zero (fun k => ResetEvent.dev (SlotId.usart k))
      (ResetEvent.dev (SlotId.gpio i)) (fun k => by simp)
    cases hr : s.rcc.isSome <;> cases hf : s.flash.isSome <;>
      simp [stm32_mcu_reset, hr, hf, List.count_append, List.count_cons,
        hmain, hu0, hi]
  · intro j hj
    have hmain := count_map_filter_range
      (fun k => ResetEvent.dev (SlotId.usart k)) huinj
      (fun k => (slotGet s.usart k).isSome) STM32_MAX_USART j
    have hg0 := count_map_ne_zero (fun k => ResetEvent.dev (SlotId.gpio k))
      (ResetEvent.dev (SlotId.usart j)) (fun k => by simp)
    cases hr : s.rcc.isSome <;> cases hf : s.flash.isSome <;>
      simp [stm32_mcu_reset, hr, hf, List.count_append, List.count_cons,
        hmain, hg0, hj]
  · have hg0 := count_map_ne_zero (fun k => ResetEvent.dev (SlotId.gpio k))
      (ResetEvent.dev SlotId.pwr) (fun k => by simp)
    have hu0 := count_map_ne_zero (fun k => ResetEvent.dev (SlotId.usart k))
      (ResetEvent.dev SlotId.pwr) (fun k => by simp)
    cases hr : s.rcc.isSome <;> cases hf : s.flash.isSome <;>
      simp [stm32_mcu_reset, hr, hf, List.count_append, List.count_cons, hg0, hu0]

/-- Witness for the amended C4 at the concrete capsPwr instance: its
populated gpio[a] slot is reset exactly once. -/
theorem reset_forward_counts_witness :
    (stm32_mcu_reset stateP).count (ResetEvent.dev (SlotId.gpio 0)) =
      (if (slotGet stateP.gpio 0).isSome then 1 else 0) :=
  (reset_forward_counts stateP).2.2.2.1 0 (by decide)

/-- C10: the overriding memory-region-creation hook only invokes the
parent (Cortex-M) class routine and adds no extension step, so it is
observationally identical to the base routine on every device state. -/
theorem memory_regions_create_equals_parent {DevState : Type}
    (parent_memory_regions_create : DevState → DevState) (dev : DevState) :
    stm32_mcu_memory_regions_create_callback parent_memory_regions_create dev =
      parent_memory_regions_create dev :=
  rfl

/-- Witness for C10 at a concrete parent routine and device state. -/
theorem memory_regions_create_equals_parent_witness :
    stm32_mcu_memory_regions_create_callback (fun n : Nat => n + 1) 5 = 6 :=
  memory_regions_create_equals_parent (fun n : Nat => n + 1) 5

end STM32
